import Mathlib

/-!
Shallow embedding of the article structuring pipeline of
src/generate_and_send.py (UPSC-Email-Service), together with theorems
settling the specification claims about it.

Python strings are modelled as Lean String / List Char; character
classes (isalnum, isdigit, whitespace) are modelled over ASCII, which
covers every keyword, sentinel and input appearing in the program and in
the concrete inputs used below.  Python floats in the classifier are
modelled as exact rationals; a comment at each spot records the float
expression being translated and why the translation is exact for the
values the program can produce.
-/

namespace UPSC

/-- Whitespace as recognised by Python str.strip / \s (ASCII range). -/
def pyIsSpace (c : Char) : Bool :=
  c = ' ' || c = '\t' || c = '\n' || c = '\r' || c = '\x0b' || c = '\x0c'

/-- Drop trailing whitespace, Python str.rstrip(). -/
def rstripList (l : List Char) : List Char :=
  (l.reverse.dropWhile pyIsSpace).reverse

/-- Python str.strip(): drop leading and trailing whitespace. -/
def stripList (l : List Char) : List Char :=
  rstripList (l.dropWhile pyIsSpace)

/-- Python str.strip() on String. -/
def pyStrip (s : String) : String :=
  String.mk (stripList s.data)

/-- Python str.lower() (ASCII). -/
def pyLower (s : String) : String :=
  String.mk (s.data.map Char.toLower)

/-- Python str.upper() (ASCII). -/
def pyUpper (s : String) : String :=
  String.mk (s.data.map Char.toUpper)

/-- Does the char list end with character c (Python str.endswith for a
single character, on a list)? -/
def endsWithChar (l : List Char) (c : Char) : Bool :=
  l.getLast? = some c

/-- Last character is ASCII alphanumeric (Python str[-1].isalnum()). -/
def lastIsAlnum (l : List Char) : Bool :=
  (l.getLast?.map Char.isAlphanum).getD false

/-- Last character is an ASCII digit.  re.search(r'\d+$', t) succeeds
exactly when the last character of t is a digit. -/
def lastIsDigit (l : List Char) : Bool :=
  (l.getLast?.map Char.isDigit).getD false

/-- A candidate summary as produced by a tier, restricted to the fields
the orchestrator, validator and classifier actually read.  The Python
dict fields impact, upsc_relevance and image_bytes are presentation-only
and never read by the logic modelled here, so they are omitted.  The
field include is called include_flag because include is a Lean keyword
(the Python main flow itself names the read-out include_flag). -/
structure Parsed where
  include_flag : String
  category : String
  section_heading : String
  context : String
  background : String
  key_points : List String
  source : String
deriving DecidableEq, Repr

-- ---------------- Post-parse validation ----------------

/-- looks_truncated from src/generate_and_send.py.  Notes on the
translation: the guard re.search(r'\w{0,3}$', t) of the second rule
always succeeds (the empty match qualifies), so it is dropped;
re.search(r'\d+$', t) succeeds exactly when the stripped text ends in a
digit; t.endswith('.') is tested verbatim. -/
def looks_truncated (text : String) : Bool :=
  if text.data.isEmpty then false
  else
    let t := stripList text.data
    if endsWithChar t '-' || endsWithChar t '—' then true
    else if (decide (0 < t.length) && lastIsAlnum t && !(endsWithChar t '.'))
            && lastIsDigit t then true
    else if decide (120 < t.length)
            && !(endsWithChar t '.' || endsWithChar t '!' || endsWithChar t '?') then true
    else false

/-- validate_parsed from src/generate_and_send.py.  The Python function
first rejects a falsy argument; it is only ever called on an actual
candidate, which this embedding represents by taking a Parsed value
directly. -/
def validate_parsed (p : Parsed) : Bool :=
  if pyLower p.include_flag ≠ "yes" then true
  else if pyUpper (pyStrip p.context) = "SOURCE_ONLY" then true
  else if looks_truncated p.context || looks_truncated p.background then false
  else if p.key_points.any (fun kp => looks_truncated kp) then false
  else true

-- ---------------- safe_trim ----------------

/-- Index of the last occurrence of c, or -1 when absent
(Python str.rfind for a single character). -/
def rfindIdx (c : Char) : List Char → Int
  | [] => -1
  | a :: rest =>
    let r := rfindIdx c rest
    if 0 ≤ r then r + 1 else if a = c then 0 else -1

/-- Effect of re.sub(r'\s+\S*?$', '', w) for a w that ends in a
non-whitespace character: the leftmost match of the pattern starts at
the beginning of the last whitespace run of w and runs to the end, so
the substitution removes the final token together with the whitespace
run before it; when w contains no whitespace the pattern has no match
and w is returned unchanged. -/
def stripTrailingToken (l : List Char) : List Char :=
  let r := l.reverse.dropWhile (fun c => !pyIsSpace c)
  if r.isEmpty then l else (r.dropWhile pyIsSpace).reverse

/-- safe_trim from src/generate_and_send.py.  Python computes
int(max_chars * 0.6) and int(max_chars * 0.5) in double-precision
floats; for a nonnegative integer max_chars below 2^53 these equal
floor(6 * max_chars / 10) and floor(max_chars / 2) exactly (0.5 is an
exact double, and the relative error of the double nearest to 0.6 is
about 2^-54, far too small to carry the product across an integer
boundary before truncation), so they are modelled as the Nat divisions
(6 * max_chars) / 10 and max_chars / 2.  The Python truthiness tests
"if last_period and ..." and "if last_nl and ..." are the conjunctions
with the index being nonzero (rfind returns -1, which is truthy, when
the character is absent). -/
def trimWindow (text : List Char) (max_chars : Nat) : List Char :=
  text.take max_chars

/-- The local last_period of safe_trim:
max(window.rfind('.'), window.rfind('!'), window.rfind('?')). -/
def lastPeriodIdx (w : List Char) : Int :=
  max (max (rfindIdx '.' w) (rfindIdx '!' w)) (rfindIdx '?' w)

def safe_trim (text : List Char) (max_chars : Nat) : List Char :=
  if text.isEmpty || text.length ≤ max_chars then text
  else if lastPeriodIdx (trimWindow text max_chars) ≠ 0 ∧
      (((6 * max_chars) / 10 : Nat) : Int) < lastPeriodIdx (trimWindow text max_chars) then
    (trimWindow text max_chars).take
      (lastPeriodIdx (trimWindow text max_chars) + 1).toNat
  else if rfindIdx '\n' (trimWindow text max_chars) ≠ 0 ∧
      ((max_chars / 2 : Nat) : Int) < rfindIdx '\n' (trimWindow text max_chars) then
    rstripList ((trimWindow text max_chars).take
      (rfindIdx '\n' (trimWindow text max_chars)).toNat)
  else if !(trimWindow text max_chars).isEmpty
      && lastIsAlnum (trimWindow text max_chars) then
    stripTrailingToken (trimWindow text max_chars)
  else trimWindow text max_chars

-- ---------------- Offline fallback ----------------

/-- Splitting on re.split(r'\.|\n', text): cut at every period and
every newline, the separators themselves being dropped. -/
def splitDotNl : List Char → List (List Char)
  | [] => [[]]
  | c :: rest =>
    match splitDotNl rest with
    | [] => [[]]
    | seg :: segs =>
      if c = '.' || c = '\n' then [] :: seg :: segs
      else (c :: seg) :: segs

/-- Python " ".join(l). -/
def joinSpace : List (List Char) → List Char
  | [] => []
  | [s] => s
  | s :: rest => s ++ ' ' :: joinSpace rest

/-- The sentence list of offline_summary_fallback:
[s.strip() for s in re.split(r'\.|\n', text) if len(s.strip()) > 40]. -/
def offlineSents (text : String) : List (List Char) :=
  ((splitDotNl text.data).map stripList).filter (fun s => decide (40 < s.length))

/-- offline_summary_fallback from src/generate_and_send.py.  The
impact, upsc_relevance and image_bytes entries of the returned dict are
not part of the modelled record (they are never read by the logic
embedded here). -/
def offline_summary_fallback (title text url : String) : Parsed :=
  let sents := offlineSents text
  let context : List Char := match sents with | [] => title.data | s :: _ => s
  let background : List Char :=
    if 1 < sents.length then joinSpace ((sents.drop 1).take 2) else []
  let key_points : List (List Char) :=
    if 1 < sents.length then (sents.drop 1).take 4 else [title.data]
  { include_flag := "yes",
    category := "Misc",
    section_heading := String.mk (title.data.take 100),
    context := String.mk (context.take 600),
    background := String.mk (background.take 800),
    key_points := (key_points.take 5).map String.mk,
    source := url }

-- ---------------- Classification ----------------

/-- Python s1 in s2 (substring containment). -/
def listContainsSub (sub : List Char) : List Char → Bool
  | [] => sub.isEmpty
  | c :: rest => sub.isPrefixOf (c :: rest) || listContainsSub sub rest

/-- Python any(w in s for w in ws). -/
def anyIn (s : String) (ws : List String) : Bool :=
  ws.any (fun w => listContainsSub w.data s.data)

/-- Does the regex gs\s*([1-4]) match at the very start of the list?
On success, the captured digit. -/
def gsHere : List Char → Option Char
  | 'g' :: 's' :: tail =>
    match tail.dropWhile pyIsSpace with
    | d :: _ => if d = '1' || d = '2' || d = '3' || d = '4' then some d else none
    | [] => none
  | _ => none

/-- re.search(r'gs\s*([1-4])', s): the captured digit of the leftmost
match, scanning start positions from the left.  The greedy \s* needs no
backtracking here: if the first non-whitespace character after "gs" is
not in [1-4] then no shorter whitespace run can produce a match at this
start position either, because the run consists of whitespace. -/
def findGSDigit : List Char → Option Char
  | [] => none
  | c :: rest =>
    match gsHere (c :: rest) with
    | some d => some d
    | none => findGSDigit rest

/-- normalize_model_category from src/generate_and_send.py. -/
def normalize_model_category (cat_str : String) : String :=
  if cat_str.data.isEmpty then ""
  else
    let s := pyLower (pyStrip cat_str)
    match findGSDigit s.data with
    | some d => "GS" ++ String.mk [d]
    | none =>
      if anyIn s ["polity", "governance", "constitution", "parliament", "judgment"] then "GS2"
      else if anyIn s ["economy", "finance", "gdp", "rbi", "trade", "industry"] then "GS3"
      else if anyIn s ["environment", "climate", "biodiversity", "tectonic", "paleo", "nobel", "isro"] then "GS3"
      else if anyIn s ["ethic", "ethics", "integrity", "corruption"] then "GS4"
      else if anyIn s ["society", "social", "tribal", "caste", "education", "health"] then "GS1"
      else if anyIn s ["cme", "study", "report", "index", "research"] then "CME"
      else if anyIn s ["map", "mapping", "geography", "location"] then "Mapping"
      else if anyIn s ["ffp", "finance", "fiscal", "budget"] then "FFP"
      else ""

/-- Python combined.count(kw), fueled so that the kernel can evaluate
it: number of non-overlapping occurrences, scanning from the left and
resuming after each match.  Every recursive call shortens the list by
at least one element and spends one unit of fuel, so fuel equal to the
list length (as supplied by countSub) never runs out and the zero-fuel
arm is reached only on the empty list. -/
def countSubFuel (sub : List Char) : Nat → List Char → Nat
  | 0, _ => 0
  | _, [] => 0
  | fuel + 1, c :: rest =>
    if sub.isPrefixOf (c :: rest) then
      1 + countSubFuel sub fuel (rest.drop (sub.length - 1))
    else countSubFuel sub fuel rest

/-- Python combined.count(kw). -/
def countSub (sub : List Char) (l : List Char) : Nat :=
  countSubFuel sub l.length l

/-- CATEGORY_KEYWORDS from src/generate_and_send.py, in dict insertion
order. -/
def CATEGORY_KEYWORDS : List (String × List String) :=
  [("GS1", ["tribal", "caste", "society", "population", "culture", "heritage",
            "migration", "demography", "education", "health", "poverty", "geography",
            "river", "plateau"]),
   ("GS2", ["constitution", "cabinet", "parliament", "legislation", "judgment",
            "supreme court", "high court", "governance", "police", "bureaucracy",
            "policy", "pib", "court", "minister", "administration"]),
   ("GS3", ["economy", "gdp", "inflation", "rbi", "bank", "finance", "industry",
            "agriculture", "infrastructure", "climate", "environment", "isro",
            "science", "technology", "nobel", "biodiversity", "ecosystem", "research",
            "energy", "trade", "tectonic", "rift", "sediment", "paleo", "palaeo"]),
   ("GS4", ["ethics", "integrity", "corruption", "values", "moral",
            "public service", "code of conduct", "ethical"]),
   ("CME", ["study", "index", "report", "research", "survey", "analysis", "paper", "finding"]),
   ("Mapping", ["map", "location", "geography", "boundary", "river", "plateau", "island"]),
   ("FFP", ["finance", "fiscal", "budget", "public finance", "tax", "expenditure"]),
   ("Misc", [])]

/-- The closed category taxonomy: the keys of CATEGORY_KEYWORDS. -/
def catNames : List String := CATEGORY_KEYWORDS.map Prod.fst

/-- Weight of one keyword occurrence: the Python float expression
1.0 + min(len(kw) / 12.0, 1.5), translated to exact rationals.  Every
score the classifier forms is a sum of naturals times such weights,
hence a rational n/12; consecutive representable values differ by at
least 1/12, which dwarfs double rounding error, so the exact-rational
translation agrees with the float computation on every comparison the
classifier makes. -/
def kwWeight (kw : String) : ℚ := 1 + min ((kw.length : ℚ) / 12) (3 / 2)

/-- (title + " " + text).lower() as a character list. -/
def combinedText (title text : String) : List Char :=
  (pyLower (title ++ " " ++ text)).data

/-- Score of one category: sum over its keywords of
combined.count(kw) * (1.0 + min(len(kw)/12.0, 1.5)).  Adding the term
unconditionally is equivalent to the guarded "if cnt:" accumulation of
the source, because the term is zero when the count is zero. -/
def catScore (kws : List String) (comb : List Char) : ℚ :=
  (kws.map (fun kw => ((countSub kw.data comb : ℕ) : ℚ) * kwWeight kw)).sum

/-- Twelve times a category score, as a natural number: the weight of
one occurrence of kw is (12 + min(len(kw), 18)) / 12 (see kwWeight), so
scores live on the grid of twelfths and this scaled value is exact.
Used to evaluate concrete scores by kernel computation. -/
def catScoreN (kws : List String) (comb : List Char) : ℕ :=
  (kws.map (fun kw => countSub kw.data comb * (12 + min kw.length 18))).sum

/-- The keyword list of a category. -/
def kwsOf (c : String) : List String :=
  (CATEGORY_KEYWORDS.lookup c).getD []

/-- The scores dict, as an association list in insertion order. -/
def scoresList (title text : String) : List (String × ℚ) :=
  CATEGORY_KEYWORDS.map (fun p => (p.1, catScore p.2 (combinedText title text)))

/-- Python dict scores.get(k, 0). -/
def dictGet (l : List (String × ℚ)) (k : String) : ℚ :=
  (l.lookup k).getD 0

/-- The score of a category, as read back by the classifier. -/
def getScore (title text cat : String) : ℚ :=
  dictGet (scoresList title text) cat

/-- Stable insertion into a list sorted by descending score: the new
element goes after the strictly-greater ones and before equal ones,
which reproduces the order of Python sorted(..., reverse=True) (a
stable sort) when elements are inserted from the right. -/
def insertDesc (x : String × ℚ) : List (String × ℚ) → List (String × ℚ)
  | [] => [x]
  | y :: rest => if x.2 < y.2 then y :: insertDesc x rest else x :: y :: rest

/-- Python sorted(scores.items(), key=value, reverse=True), stable. -/
def pySortedDesc (l : List (String × ℚ)) : List (String × ℚ) :=
  l.foldr insertDesc []

/-- First element of the list satisfying the predicate, as the Python
"for p in priority: if cond(p): return p" loop. -/
def firstSatisfying (pred : String → Bool) : List String → Option String
  | [] => none
  | p :: rest => if pred p then some p else firstSatisfying pred rest

/-- The fixed tie-break priority ordering of the source. -/
def priorityList : List String :=
  ["GS2", "GS3", "GS1", "GS4", "CME", "FFP", "Mapping", "Misc"]

/-- score_category_by_keywords from src/generate_and_send.py.  The
float comparisons second_score >= 0.7 * best_score and
abs(scores.get(p, 0) - best_score) < 1e-6 are translated to the exact
rationals 7/10 and 1/1000000 (see kwWeight for why this is faithful).
The empty match arm is unreachable: the scores dict always has eight
entries. -/
def score_category_by_keywords (title text : String) : String × List (String × ℚ) :=
  match pySortedDesc (scoresList title text) with
  | [] => ("Misc", scoresList title text)
  | best :: rest =>
    if best.2 ≤ 0 then ("Misc", scoresList title text)
    else if (7 : ℚ) / 10 * best.2
        ≤ (match rest with | [] => (0 : ℚ) | s :: _ => s.2) then
      match firstSatisfying
          (fun p =>
            decide (|dictGet (scoresList title text) p - best.2| < 1 / 1000000)
              || decide (dictGet (scoresList title text) p = best.2))
          priorityList with
      | some p => (p, scoresList title text)
      | none => (best.1, scoresList title text)
    else (best.1, scoresList title text)

-- ---------------- Per-article orchestration (main, lines 703-765) ----------------

/-- The tier fallback chain of main (lines 703-712): Groq first; on
None, OpenAI when a key is configured; on None again, the offline
fallback.  A tier result of none models both an exception/None return
and the falsy empty-JSON parse. -/
def firstCandidate (groqRes : Option Parsed) (openaiKeySet : Bool)
    (openaiRes : Option Parsed) (title text url : String) : Parsed :=
  match groqRes with
  | some p => p
  | none =>
    match (if openaiKeySet then openaiRes else none) with
    | some p => p
    | none => offline_summary_fallback title text url

/-- The SOURCE_ONLY branch of main (lines 726-733): the context is
replaced by the sentinel note and the category is normalized, falling
back to the scored classifier (Python: normalize_model_category(...)
or score_category_by_keywords(...)[0]). -/
def sourceOnlyAdjust (p : Parsed) (title text : String) : Parsed :=
  { p with
    context := "SOURCE_ONLY (see source link)",
    category :=
      if normalize_model_category p.category ≠ "" then
        normalize_model_category p.category
      else (score_category_by_keywords title text).1 }

/-- Acceptance logic of main (lines 719-739): skip when the candidate
is marked not relevant; keep SOURCE_ONLY candidates after adjustment;
otherwise validate, and on validation failure substitute the offline
fallback (which is accepted without being validated). -/
def acceptCandidate (p : Parsed) (title text url : String) : Option Parsed :=
  if pyLower p.include_flag ≠ "yes" then none
  else if pyUpper (pyStrip p.context) = "SOURCE_ONLY" then
    some (sourceOnlyAdjust p title text)
  else if validate_parsed p then some p
  else some (offline_summary_fallback title text url)

/-- Lines 703-739 of main: tier fallback chain followed by acceptance. -/
def orchestrate (groqRes : Option Parsed) (openaiKeySet : Bool)
    (openaiRes : Option Parsed) (title text url : String) : Option Parsed :=
  acceptCandidate (firstCandidate groqRes openaiKeySet openaiRes title text url)
    title text url

/-- Category stamping of main (lines 742-749): the normalized model
category when mappable, else the scored classifier result. -/
def stampCategory (p : Parsed) (title text : String) : Parsed :=
  if normalize_model_category p.category ≠ "" then
    { p with category := normalize_model_category p.category }
  else { p with category := (score_category_by_keywords title text).1 }

/-- Lines 703-765 of main restricted to the modelled fields: candidate
selection, acceptance and category stamping.  The remaining statements
of that stretch set presentation-only fields (upsc_relevance,
image_bytes, source default) or normalize a string-typed key_points,
which the typed model already represents as a list. -/
def processArticle (groqRes : Option Parsed) (openaiKeySet : Bool)
    (openaiRes : Option Parsed) (title text url : String) : Option Parsed :=
  (orchestrate groqRes openaiKeySet openaiRes title text url).map
    (fun p => stampCategory p title text)

-- ---------------- Fingerprints (spec-modelled) ----------------

/-- Collapse every whitespace run to a single space, fueled so that
the kernel can evaluate it: every recursive call shortens the list and
spends one unit of fuel, so fuel equal to the list length (as supplied
by collapseWs) never runs out. -/
def collapseWsFuel : Nat → List Char → List Char
  | 0, _ => []
  | _, [] => []
  | fuel + 1, c :: rest =>
    if pyIsSpace c then ' ' :: collapseWsFuel fuel (rest.dropWhile pyIsSpace)
    else c :: collapseWsFuel fuel rest

/-- Collapse every whitespace run to a single space. -/
def collapseWs (l : List Char) : List Char :=
  collapseWsFuel l.length l

/-- Modelled from the spec: the code under src/ contains no fingerprint
computation (the cross-field dedup the spec attributes to the record
assembler is absent from the repository), so the sentence fingerprint
is taken from the spec Glossary: the lowercase, whitespace-collapsed,
length-bounded representation of a sentence, with an 80-character
bound. -/
def fingerprint (s : String) : String :=
  String.mk ((collapseWs (stripList (pyLower s).data)).take 80)

-- ---------------- Concrete candidates used in the theorems ----------------

/-- A remote-tier candidate whose context ends in a dangling hyphen, so
it fails validation. -/
def invalidCand : Parsed :=
  { include_flag := "yes", category := "GS2", section_heading := "h",
    context := "The ministry announced the next step-", background := "",
    key_points := [], source := "" }

/-- A remote-tier candidate that passes validation. -/
def validCand : Parsed :=
  { include_flag := "yes", category := "GS3", section_heading := "h",
    context := "A complete report was published today.", background := "",
    key_points := ["It covers policy."], source := "" }

/-- A valid candidate whose key_points list repeats the same sentence
twice. -/
def dupCand : Parsed :=
  { include_flag := "yes", category := "Polity", section_heading := "h",
    context := "The committee met today.", background := "",
    key_points := ["Duplicate fact sentence.", "Duplicate fact sentence."],
    source := "" }

/-- A valid candidate with an empty facts list. -/
def nofactsCand : Parsed :=
  { include_flag := "yes", category := "GS2", section_heading := "h",
    context := "This is a complete sentence.", background := "",
    key_points := [], source := "" }

/-- The truncation condition as worded by the specification: on the
stripped text, ends with a dangling hyphen/dash, or ends with a bare
trailing digit run (no terminal punctuation can follow a trailing
digit), or exceeds the length threshold with no terminal sentence
punctuation. -/
def TruncatedField (s : String) : Prop :=
  let t := stripList s.data
  endsWithChar t '-' = true ∨ endsWithChar t '—' = true ∨
  lastIsDigit t = true ∨
  (120 < t.length ∧ endsWithChar t '.' = false ∧ endsWithChar t '!' = false ∧
   endsWithChar t '?' = false)

instance (s : String) : Decidable (TruncatedField s) := by
  unfold TruncatedField; infer_instance

-- ---------------- Theorem C10 ----------------

/-- The entirely empty candidate that claim C10 is about. -/
def emptyCand : Parsed :=
  { include_flag := "yes", category := "", section_heading := "",
    context := "", background := "", key_points := [], source := "" }

/-- C10: the validator accepts entirely empty candidates: with
include = "yes", empty context, empty background and an empty key_points
list, validate_parsed returns True, because looks_truncated is False on
empty text and the per-bullet check is vacuous on an empty list. -/
theorem validator_accepts_empty_candidate :
    validate_parsed emptyCand = true ∧ looks_truncated "" = false := by
  decide

-- ---------------- Theorem C3 ----------------

/-- Three-way if-chain with constant-true branches as a disjunction. -/
theorem boolChain (b1 b2 b3 : Bool) :
    (if b1 then true else if b2 then true else if b3 then true else false)
      = (b1 || b2 || b3) := by
  cases b1 <;> cases b2 <;> cases b3 <;> simp

/-- The guards of the second looks_truncated rule are implied by the
trailing-digit test: a trailing digit makes the text nonempty, its last
character alphanumeric and distinct from a period. -/
theorem rule2_collapse (t : List Char) :
    ((decide (0 < t.length) && lastIsAlnum t && !(endsWithChar t '.'))
        && lastIsDigit t) = lastIsDigit t := by
  rcases hlast : t.getLast? with _ | c
  · simp [endsWithChar, lastIsAlnum, lastIsDigit, hlast]
  · have hlen : 0 < t.length := by
      rcases List.getLast?_eq_some_iff.mp hlast with ⟨ys, hys⟩
      simp [hys]
    by_cases hdig : c.isDigit = true
    · have halnum : c.isAlphanum = true := by simp [Char.isAlphanum, hdig]
      have hdot : ¬(c = '.') := by
        intro he; rw [he] at hdig; exact absurd hdig (by decide)
      simp [endsWithChar, lastIsAlnum, lastIsDigit, hlast, hlen, halnum, hdot]
    · have hdig' : (lastIsDigit t) = false := by
        simp [lastIsDigit, hlast]
        exact Bool.not_eq_true c.isDigit ▸ hdig
      simp [hdig']

/-- Characterization of looks_truncated: on the stripped text it holds
exactly for a trailing dash, a trailing digit, or an over-long text
with no terminal sentence punctuation.  In particular the redundant
guards of its second rule (the always-matching regex and the
alphanumeric test) collapse to the trailing-digit test. -/
theorem looks_truncated_iff (s : String) :
    looks_truncated s = true ↔ TruncatedField s := by
  unfold looks_truncated TruncatedField
  by_cases hempty : s.data.isEmpty
  · have hd : s.data = [] := List.isEmpty_iff.mp hempty
    simp [hempty, hd, stripList, rstripList, endsWithChar, lastIsDigit]
  · simp only [hempty, Bool.false_eq_true, if_false]
    rw [rule2_collapse, boolChain]
    simp only [Bool.or_eq_true, Bool.and_eq_true, Bool.not_eq_true',
      Bool.or_eq_false_iff, decide_eq_true_eq]
    tauto

/-- C3: the validator applies its rules in order: a candidate whose
include flag is not "yes" is trivially valid; a candidate whose
stripped, uppercased context equals the SOURCE_ONLY sentinel is valid;
otherwise the candidate is valid exactly when no narrative field
(context, background, or any key-point bullet) looks truncated, where
truncation means a trailing dash, a bare trailing digit run, or an
over-long text with no terminal sentence punctuation. -/
theorem validator_rule_characterization (p : Parsed) :
    validate_parsed p = true ↔
      (pyLower p.include_flag ≠ "yes" ∨
       pyUpper (pyStrip p.context) = "SOURCE_ONLY" ∨
       (¬ TruncatedField p.context ∧ ¬ TruncatedField p.background ∧
        ∀ kp ∈ p.key_points, ¬ TruncatedField kp)) := by
  unfold validate_parsed
  split_ifs with h1 h2 h3 h4
  · simp [h1]
  · simp [h2]
  · constructor
    · intro h; exact absurd h (by simp)
    · rintro (h | h | ⟨hc', hb', _⟩)
      · exact absurd h h1
      · exact absurd h h2
      · rcases (Bool.or_eq_true _ _).mp h3 with hx | hx
        · exact hc' ((looks_truncated_iff _).mp hx)
        · exact hb' ((looks_truncated_iff _).mp hx)
  · rcases List.any_eq_true.mp h4 with ⟨kp, hmem, hkp⟩
    constructor
    · intro h; exact absurd h (by simp)
    · rintro (h | h | ⟨_, _, hall⟩)
      · exact absurd h h1
      · exact absurd h h2
      · exact hall kp hmem ((looks_truncated_iff _).mp hkp)
  · constructor
    · intro _
      refine Or.inr (Or.inr ⟨?_, ?_, ?_⟩)
      · intro ht
        exact h3 ((Bool.or_eq_true _ _).mpr (Or.inl ((looks_truncated_iff _).mpr ht)))
      · intro ht
        exact h3 ((Bool.or_eq_true _ _).mpr (Or.inr ((looks_truncated_iff _).mpr ht)))
      · intro kp hm ht
        exact h4 (List.any_eq_true.mpr ⟨kp, hm, (looks_truncated_iff _).mpr ht⟩)
    · intro _; rfl

/-- Instance of the rule characterization at a concrete candidate. -/
theorem validator_rule_characterization_witness :
    validate_parsed validCand = true :=
  (validator_rule_characterization validCand).mpr
    (Or.inr (Or.inr ⟨by decide, by decide, by decide⟩))

-- ---------------- Theorem C5 ----------------

/-- A candidate with include = "yes", a non-sentinel untruncated
context and an empty facts list is accepted by the validator: the code
imposes no minimum count of substantive facts entries. -/
theorem validator_no_min_facts_cex :
    validate_parsed nofactsCand = true ∧ nofactsCand.key_points = [] ∧
    pyLower nofactsCand.include_flag = "yes" ∧
    pyUpper (pyStrip nofactsCand.context) ≠ "SOURCE_ONLY" := by
  decide

/-- C5 amended: the validator imposes no requirement at all on the
number or substance of facts entries; whenever the include flag is
"yes", the context is not the sentinel and context and background pass
the truncation check, the candidate with its facts list emptied is
still valid. -/
theorem validator_ignores_facts_count (p : Parsed)
    (h1 : pyLower p.include_flag = "yes")
    (h2 : pyUpper (pyStrip p.context) ≠ "SOURCE_ONLY")
    (h3 : looks_truncated p.context = false)
    (h4 : looks_truncated p.background = false) :
    validate_parsed { p with key_points := [] } = true := by
  simp [validate_parsed, h1, h2, h3, h4]

/-- Instance of validator_ignores_facts_count at a concrete candidate. -/
theorem validator_ignores_facts_count_witness :
    validate_parsed { nofactsCand with key_points := [] } = true :=
  validator_ignores_facts_count nofactsCand (by decide) (by decide)
    (by decide) (by decide)

-- ---------------- Theorem C2 ----------------

/-- The offline fallback always emits at least one key point: the
second to fifth long sentences when at least two exist, the bare title
otherwise. -/
theorem offline_key_points_ne_nil (title text url : String) :
    (offline_summary_fallback title text url).key_points ≠ [] := by
  rw [← List.length_pos]
  simp only [offline_summary_fallback]
  split_ifs with h <;>
    simp [List.length_take, List.length_drop] <;> omega

/-- The offline fallback is always accepted by the per-article
orchestration when both remote tiers return no result: every branch of
the acceptance logic yields a record. -/
theorem orchestrate_offline_isSome (openaiKeySet : Bool) (title text url : String) :
    (orchestrate none openaiKeySet none title text url).isSome = true := by
  have h1 : firstCandidate none openaiKeySet none title text url
      = offline_summary_fallback title text url := by
    cases openaiKeySet <;> rfl
  have hinc : pyLower (offline_summary_fallback title text url).include_flag = "yes" := rfl
  rw [orchestrate, h1, acceptCandidate]
  split_ifs with h2 h3 h4
  · exact absurd hinc h2
  · rfl
  · rfl
  · rfl

/-- C2: fallback floor: for every non-empty input text the offline
fallback returns a candidate with include = "yes" and a non-empty
key_points list, and (being a total function) never fails; with both
remote tiers returning no result the per-article orchestration still
yields a record. -/
theorem offline_fallback_floor (title text url : String) (htext : text ≠ "") :
    (offline_summary_fallback title text url).include_flag = "yes" ∧
    (offline_summary_fallback title text url).key_points ≠ [] ∧
    (∀ openaiKeySet,
      (orchestrate none openaiKeySet none title text url).isSome = true) :=
  ⟨rfl, offline_key_points_ne_nil title text url,
    fun k => orchestrate_offline_isSome k title text url⟩

/-- Instance of the fallback floor at a concrete article. -/
theorem offline_fallback_floor_witness :
    (offline_summary_fallback "T" "some text" "u").include_flag = "yes" ∧
    (offline_summary_fallback "T" "some text" "u").key_points ≠ [] ∧
    (∀ openaiKeySet,
      (orchestrate none openaiKeySet none "T" "some text" "u").isSome = true) :=
  offline_fallback_floor "T" "some text" "u" (by decide)

-- ---------------- Theorem C9 ----------------

/-- The offline extractor ignores fact patterns: on a text that is a
single long sentence containing the digit tokens 500 and 2023, the
facts list is the bare title, which contains no digit and is not a
Figure bullet. -/
theorem offline_extractor_no_patterns_cex :
    (offline_summary_fallback "T"
        "The scheme allocated 500 crore rupees to the mission during 2023"
        "u").key_points = ["T"] ∧
    ("The scheme allocated 500 crore rupees to the mission during 2023".data.any
        Char.isDigit) = true ∧
    ("T".data.any Char.isDigit) = false ∧
    listContainsSub "Figure:".data "T".data = false := by
  decide

/-- C9 amended: the deterministic extractor performs no pattern-scored
ranking and emits no Figure bullets: its facts list is always non-empty
and every entry is either the bare title or one of the stripped
over-40-character period/newline segments of the source text (in
particular sentences 2 to 5 in order, never reordered by any score). -/
theorem offline_extractor_first_sentences (title text url : String) :
    (offline_summary_fallback title text url).key_points ≠ [] ∧
    ∀ kp ∈ (offline_summary_fallback title text url).key_points,
      kp = title ∨
      (40 < kp.data.length ∧ kp.data ∈ (splitDotNl text.data).map stripList) := by
  refine ⟨offline_key_points_ne_nil title text url, ?_⟩
  intro kp hm
  simp only [offline_summary_fallback] at hm
  rcases List.mem_map.mp hm with ⟨l, hl0, rfl⟩
  have hl := List.mem_of_mem_take hl0
  split_ifs at hl with h
  · right
    have hsents : l ∈ offlineSents text :=
      List.mem_of_mem_drop (List.mem_of_mem_take hl)
    rcases List.mem_filter.mp hsents with ⟨hmem, hpred⟩
    exact ⟨by simpa using hpred, hmem⟩
  · left
    rcases List.mem_singleton.mp hl with rfl
    rfl

-- ---------------- Theorem C4 ----------------

/-- rfindIdx bounds every occurrence from above. -/
theorem rfindIdx_ge (c : Char) (l : List Char) (i : Nat) (h : l[i]? = some c) :
    (i : Int) ≤ rfindIdx c l := by
  induction l generalizing i with
  | nil => simp at h
  | cons a rest ih =>
    cases i with
    | zero =>
      have hac : a = c := by simpa using h
      rw [rfindIdx]
      by_cases hr : 0 ≤ rfindIdx c rest
      · simp only [hr, if_true]; omega
      · simp [hr, hac]
    | succ j =>
      have hj : (j : Int) ≤ rfindIdx c rest := ih j (by simpa using h)
      have hr : 0 ≤ rfindIdx c rest := le_trans (by positivity) hj
      rw [rfindIdx]
      simp only [hr, if_true]
      push_cast
      omega

/-- A nonnegative rfindIdx result is the index of an occurrence. -/
theorem rfindIdx_spec (c : Char) (l : List Char) (h : 0 ≤ rfindIdx c l) :
    ∃ j : Nat, (j : Int) = rfindIdx c l ∧ l[j]? = some c := by
  induction l with
  | nil => rw [rfindIdx] at h; omega
  | cons a rest ih =>
    by_cases hr : 0 ≤ rfindIdx c rest
    · obtain ⟨j, hj, hget⟩ := ih hr
      refine ⟨j + 1, ?_, by simpa using hget⟩
      rw [rfindIdx]
      simp only [hr, if_true]
      push_cast
      omega
    · by_cases hac : a = c
      · exact ⟨0, by simp [rfindIdx, hr, hac], by simp [hac]⟩
      · rw [rfindIdx] at h
        simp only [hr, if_false, hac] at h
        omega

/-- The reverse of a suffix of the reverse is a prefix. -/
theorem reverse_of_suffix {s l : List Char} (h : s <:+ l.reverse) :
    s.reverse <+: l := by
  obtain ⟨t, ht⟩ := h
  exact ⟨t.reverse, by rw [← List.reverse_append, ht, List.reverse_reverse]⟩

/-- Taking an initial stretch of a list yields a prefix of it. -/
theorem take_front (n : Nat) (l : List Char) : l.take n <+: l :=
  ⟨l.drop n, List.take_append_drop n l⟩

/-- Removing a final stretch through reversal yields a prefix. -/
theorem reverse_dropWhile_front (p : Char → Bool) (l : List Char) :
    (l.reverse.dropWhile p).reverse <+: l :=
  reverse_of_suffix (List.dropWhile_suffix p)

/-- rstripList returns a prefix. -/
theorem rstripList_front (l : List Char) : rstripList l <+: l :=
  reverse_dropWhile_front pyIsSpace l

/-- stripTrailingToken returns a prefix. -/
theorem stripTrailingToken_front (l : List Char) : stripTrailingToken l <+: l := by
  rw [stripTrailingToken]
  split_ifs with h
  · exact List.prefix_refl l
  · have h1 : (l.reverse.dropWhile fun c => !pyIsSpace c).dropWhile pyIsSpace
        <:+ l.reverse :=
      (List.dropWhile_suffix pyIsSpace).trans
        (List.dropWhile_suffix (fun c => !pyIsSpace c))
    exact reverse_of_suffix h1

/-- safe_trim of a text within the budget is the text itself. -/
theorem safe_trim_short (text : List Char) (N : Nat) (h : text.length ≤ N) :
    safe_trim text N = text := by
  rw [safe_trim]
  simp [h]

/-- The trim window is a prefix of the text. -/
theorem trimWindow_front (text : List Char) (N : Nat) :
    trimWindow text N <+: text :=
  take_front N text

/-- safe_trim always returns a prefix of its input. -/
theorem safe_trim_front (text : List Char) (N : Nat) : safe_trim text N <+: text := by
  rw [safe_trim]
  split_ifs with h1 h2 h3 h4
  · exact List.prefix_refl _
  · exact (take_front _ _).trans (trimWindow_front _ _)
  · exact ((rstripList_front _).trans (take_front _ _)).trans
      (trimWindow_front _ _)
  · exact (stripTrailingToken_front _).trans (trimWindow_front _ _)
  · exact trimWindow_front _ _

/-- Taking one past an occurrence ends the list at that occurrence. -/
theorem getLast?_take_succ (l : List Char) (j : Nat) (c : Char)
    (h : l[j]? = some c) : (l.take (j + 1)).getLast? = some c := by
  have hj : j < l.length := by
    by_contra hcon
    rw [List.getElem?_eq_none (by omega)] at h
    exact absurd h (by simp)
  rw [List.take_succ, h]
  simp

/-- When a sentence terminator occurs past sixty percent of the budget,
safe_trim cuts right after the last terminator in the window, so the
result ends in a terminator. -/
theorem safe_trim_sentence_end (text : List Char) (N : Nat)
    (hlen : N < text.length) (i : Nat) (h60 : (6 * N) / 10 < i) (hiN : i < N)
    (hterm : text[i]? = some '.' ∨ text[i]? = some '!' ∨ text[i]? = some '?') :
    ∃ c, (c = '.' ∨ c = '!' ∨ c = '?') ∧ (safe_trim text N).getLast? = some c := by
  have hne : ¬(text.isEmpty || decide (text.length ≤ N)) = true := by
    have hnil : text ≠ [] := by
      intro hcon; rw [hcon] at hlen; simp at hlen
    simp only [Bool.or_eq_true, List.isEmpty_iff, decide_eq_true_eq, not_or]
    exact ⟨hnil, by omega⟩
  have hwin : ∀ d : Char, text[i]? = some d → (trimWindow text N)[i]? = some d := by
    intro d hd
    rw [trimWindow, List.getElem?_take_of_lt hiN]
    exact hd
  have hlpi : (i : Int) ≤ lastPeriodIdx (trimWindow text N) := by
    rw [lastPeriodIdx]
    rcases hterm with hd | hd | hd
    · exact le_trans (rfindIdx_ge '.' _ i (hwin _ hd))
        (le_trans (le_max_left _ _) (le_max_left _ _))
    · exact le_trans (rfindIdx_ge '!' _ i (hwin _ hd))
        (le_trans (le_max_right _ _) (le_max_left _ _))
    · exact le_trans (rfindIdx_ge '?' _ i (hwin _ hd)) (le_max_right _ _)
  have hgt : (((6 * N) / 10 : Nat) : Int) < lastPeriodIdx (trimWindow text N) := by
    have : (((6 * N) / 10 : Nat) : Int) < (i : Int) := by exact_mod_cast h60
    omega
  have hcond : lastPeriodIdx (trimWindow text N) ≠ 0 ∧
      (((6 * N) / 10 : Nat) : Int) < lastPeriodIdx (trimWindow text N) :=
    ⟨by omega, hgt⟩
  have hres : safe_trim text N = (trimWindow text N).take
      (lastPeriodIdx (trimWindow text N) + 1).toNat := by
    rw [safe_trim, if_neg hne, if_pos hcond]
  have hlp0 : (0 : Int) ≤ lastPeriodIdx (trimWindow text N) :=
    le_trans (by positivity) hlpi
  have hone : lastPeriodIdx (trimWindow text N) = rfindIdx '.' (trimWindow text N)
      ∨ lastPeriodIdx (trimWindow text N) = rfindIdx '!' (trimWindow text N)
      ∨ lastPeriodIdx (trimWindow text N) = rfindIdx '?' (trimWindow text N) := by
    rw [lastPeriodIdx]
    rcases max_choice (max (rfindIdx '.' (trimWindow text N))
        (rfindIdx '!' (trimWindow text N))) (rfindIdx '?' (trimWindow text N))
        with h | h
    · rcases max_choice (rfindIdx '.' (trimWindow text N))
          (rfindIdx '!' (trimWindow text N)) with h2 | h2
      · exact Or.inl (by omega)
      · exact Or.inr (Or.inl (by omega))
    · exact Or.inr (Or.inr (by omega))
  have hend : ∃ c, (c = '.' ∨ c = '!' ∨ c = '?') ∧
      ∃ j : Nat, (j : Int) = lastPeriodIdx (trimWindow text N) ∧
        (trimWindow text N)[j]? = some c := by
    rcases hone with h | h | h
    · obtain ⟨j, hj, hg⟩ := rfindIdx_spec '.' (trimWindow text N) (h ▸ hlp0)
      exact ⟨'.', Or.inl rfl, j, by omega, hg⟩
    · obtain ⟨j, hj, hg⟩ := rfindIdx_spec '!' (trimWindow text N) (h ▸ hlp0)
      exact ⟨'!', Or.inr (Or.inl rfl), j, by omega, hg⟩
    · obtain ⟨j, hj, hg⟩ := rfindIdx_spec '?' (trimWindow text N) (h ▸ hlp0)
      exact ⟨'?', Or.inr (Or.inr rfl), j, by omega, hg⟩
  obtain ⟨c, hc, j, hj, hg⟩ := hend
  refine ⟨c, hc, ?_⟩
  rw [hres]
  have htn : (lastPeriodIdx (trimWindow text N) + 1).toNat = j + 1 := by omega
  rw [htn]
  exact getLast?_take_succ (trimWindow text N) j c hg

/-- C4 amended: safe_trim returns texts within the budget unchanged and
otherwise a prefix of the text; it is guaranteed to end at a sentence
terminator (hence never mid-word) whenever some terminator occurs at a
window position strictly past sixty percent of the budget, but not in
general (see the counterexample). -/
theorem safe_trim_behavior :
    (∀ (text : List Char) (N : Nat), text.length ≤ N → safe_trim text N = text) ∧
    (∀ (text : List Char) (N : Nat), safe_trim text N <+: text) ∧
    (∀ (text : List Char) (N : Nat), N < text.length →
      ∀ i : Nat, (6 * N) / 10 < i → i < N →
        (text[i]? = some '.' ∨ text[i]? = some '!' ∨ text[i]? = some '?') →
        ∃ c, (c = '.' ∨ c = '!' ∨ c = '?') ∧
          (safe_trim text N).getLast? = some c) :=
  ⟨safe_trim_short, safe_trim_front, safe_trim_sentence_end⟩

/-- Instance of safe_trim_behavior at a concrete text and budget. -/
theorem safe_trim_behavior_witness :
    safe_trim "Hi".data 5 = "Hi".data ∧
    safe_trim "Hello there. Bye".data 14 <+: "Hello there. Bye".data ∧
    (∃ c, (c = '.' ∨ c = '!' ∨ c = '?') ∧
      (safe_trim "Hello there. Bye".data 14).getLast? = some c) :=
  ⟨safe_trim_behavior.1 "Hi".data 5 (by decide),
    safe_trim_behavior.2.1 "Hello there. Bye".data 14,
    safe_trim_behavior.2.2 "Hello there. Bye".data 14 (by decide) 11 (by decide)
      (by decide) (Or.inl (by decide))⟩

/-- The claim that safe_trim never ends mid-word when a terminator
exists before the budget position fails: on this input a period occurs
at index 1 of a 13-character text trimmed to 10, yet the result ends in
an alphanumeric character at the cut, with the next character of the
text alphanumeric as well. -/
theorem safe_trim_midword_cex :
    safe_trim "a.bbbbbbbbbbb".data 10 = "a.bbbbbbbb".data ∧
    "a.bbbbbbbbbbb".data[1]? = some '.' ∧
    ((safe_trim "a.bbbbbbbbbbb".data 10).getLast?.map Char.isAlphanum)
      = some true ∧
    "a.bbbbbbbbbbb".data[10]? = some 'b' ∧ Char.isAlphanum 'b' = true := by
  decide

/-- Instance of the extractor description at a concrete article. -/
theorem offline_extractor_first_sentences_witness :
    (offline_summary_fallback "T" "short" "u").key_points ≠ [] ∧
    (("T" : String) = "T" ∨
      (40 < "T".data.length ∧ "T".data ∈ (splitDotNl "short".data).map stripList)) :=
  ⟨(offline_extractor_first_sentences "T" "short" "u").1,
    (offline_extractor_first_sentences "T" "short" "u").2 "T" (by decide)⟩

-- ---------------- Theorem C1 ----------------

/-- When the primary tier produced a candidate, the secondary tier
result is never consulted. -/
theorem orchestrate_primary_indep (p : Parsed) (k : Bool) (o1 o2 : Option Parsed)
    (title text url : String) :
    orchestrate (some p) k o1 title text url
      = orchestrate (some p) k o2 title text url := rfl

/-- A candidate that is marked include, is not SOURCE_ONLY and fails
validation is replaced by the offline fallback, not by the next remote
tier. -/
theorem orchestrate_invalid_offline (p : Parsed) (k : Bool) (o : Option Parsed)
    (title text url : String)
    (h1 : pyLower p.include_flag = "yes")
    (h2 : pyUpper (pyStrip p.context) ≠ "SOURCE_ONLY")
    (h3 : validate_parsed p = false) :
    orchestrate (some p) k o title text url
      = some (offline_summary_fallback title text url) := by
  show acceptCandidate p title text url = _
  rw [acceptCandidate, if_neg (not_not_intro h1), if_neg h2,
    if_neg (by simp [h3])]

/-- A candidate that is marked include, is not SOURCE_ONLY and passes
validation is accepted as is. -/
theorem orchestrate_valid_accept (p : Parsed) (k : Bool) (o : Option Parsed)
    (title text url : String)
    (h1 : pyLower p.include_flag = "yes")
    (h2 : pyUpper (pyStrip p.context) ≠ "SOURCE_ONLY")
    (h3 : validate_parsed p = true) :
    orchestrate (some p) k o title text url = some p := by
  show acceptCandidate p title text url = _
  rw [acceptCandidate, if_neg (not_not_intro h1), if_neg h2, if_pos h3]

/-- On this input the primary tier produces an invalid candidate while
the secondary tier would produce a valid one; the orchestrator
nevertheless accepts the offline fallback, never consulting the
secondary candidate, so escalation on validation failure is not the
tier-order escalation the claim describes. -/
theorem orchestrator_skips_secondary_cex :
    validate_parsed invalidCand = false ∧
    validate_parsed validCand = true ∧
    (orchestrate (some invalidCand) true (some validCand) "T" "Some body" "u")
      = some (offline_summary_fallback "T" "Some body" "u") ∧
    (orchestrate (some invalidCand) true (some validCand) "T" "Some body" "u").map
        Parsed.context ≠ some validCand.context := by
  decide

/-- C1 amended: tiers are consulted in order only on NoResult: the
secondary result never matters once the primary produced a candidate;
the first candidate obtained is validated (when marked include and not
SOURCE_ONLY), and a validation failure escalates directly to the
deterministic offline tier, whose candidate is accepted without
validation. -/
theorem orchestrator_escalation_policy :
    (∀ (p : Parsed) (k : Bool) (o1 o2 : Option Parsed) (title text url : String),
      orchestrate (some p) k o1 title text url
        = orchestrate (some p) k o2 title text url) ∧
    (∀ (p : Parsed) (k : Bool) (o : Option Parsed) (title text url : String),
      pyLower p.include_flag = "yes" →
      pyUpper (pyStrip p.context) ≠ "SOURCE_ONLY" →
      validate_parsed p = false →
      orchestrate (some p) k o title text url
        = some (offline_summary_fallback title text url)) ∧
    (∀ (p : Parsed) (k : Bool) (o : Option Parsed) (title text url : String),
      pyLower p.include_flag = "yes" →
      pyUpper (pyStrip p.context) ≠ "SOURCE_ONLY" →
      validate_parsed p = true →
      orchestrate (some p) k o title text url = some p) :=
  ⟨orchestrate_primary_indep, orchestrate_invalid_offline, orchestrate_valid_accept⟩

/-- Instance of the escalation policy at concrete candidates. -/
theorem orchestrator_escalation_policy_witness :
    orchestrate (some invalidCand) true (some validCand) "T" "B" "u"
        = orchestrate (some invalidCand) true none "T" "B" "u" ∧
    orchestrate (some invalidCand) true (some validCand) "T" "B" "u"
        = some (offline_summary_fallback "T" "B" "u") ∧
    orchestrate (some validCand) true none "T" "B" "u" = some validCand :=
  ⟨orchestrator_escalation_policy.1 invalidCand true (some validCand) none "T" "B" "u",
    orchestrator_escalation_policy.2.1 invalidCand true (some validCand) "T" "B" "u"
      (by decide) (by decide) (by decide),
    orchestrator_escalation_policy.2.2 validCand true none "T" "B" "u"
      (by decide) (by decide) (by decide)⟩

-- ---------------- Theorem C7 ----------------

/-- The digit captured by a successful gsHere match is in [1-4]. -/
theorem gsHere_mem (l : List Char) (d : Char) (h : gsHere l = some d) :
    d = '1' ∨ d = '2' ∨ d = '3' ∨ d = '4' := by
  unfold gsHere at h
  split at h
  · split at h
    · split at h
      · rename_i hcond
        cases h
        simp only [Bool.or_eq_true, decide_eq_true_eq] at hcond
        tauto
      · exact absurd h (by simp)
    · exact absurd h (by simp)
  · exact absurd h (by simp)

/-- The digit captured by findGSDigit is in [1-4]. -/
theorem findGSDigit_mem (l : List Char) (d : Char) (h : findGSDigit l = some d) :
    d = '1' ∨ d = '2' ∨ d = '3' ∨ d = '4' := by
  induction l with
  | nil => simp [findGSDigit] at h
  | cons c rest ih =>
    rw [findGSDigit] at h
    cases hg : gsHere (c :: rest) with
    | some e =>
      rw [hg] at h
      cases h
      exact gsHere_mem _ _ hg
    | none =>
      rw [hg] at h
      exact ih h

/-- normalize_model_category maps into the closed taxonomy or fails. -/
theorem normalize_range (s : String) :
    normalize_model_category s = "" ∨
    normalize_model_category s
      ∈ (["GS1", "GS2", "GS3", "GS4", "CME", "Mapping", "FFP"] : List String) := by
  unfold normalize_model_category
  split_ifs with h
  · exact Or.inl rfl
  · cases hg : findGSDigit (pyLower (pyStrip s)).data with
    | some d =>
      simp only [hg]
      rcases findGSDigit_mem _ _ hg with h1 | h1 | h1 | h1 <;> subst h1 <;>
        exact Or.inr (by decide)
    | none =>
      simp only [hg]
      split_ifs <;> simp


/-- normalize_model_category is idempotent on its successful range. -/
theorem normalize_idem (s : String) (h : normalize_model_category s ≠ "") :
    normalize_model_category (normalize_model_category s)
      = normalize_model_category s := by
  rcases normalize_range s with h0 | h0
  · exact absurd h0 h
  · simp only [List.mem_cons, List.not_mem_nil, or_false] at h0
    rcases h0 with h0 | h0 | h0 | h0 | h0 | h0 | h0 <;> rw [h0] <;> decide

/-- C7: a model-supplied category label that normalizes into the
closed taxonomy decides the final category, both in the ordinary path
and in the SOURCE_ONLY path (where the label is normalized twice); only
when normalization fails does the scored classifier decide. -/
theorem model_category_precedence :
    (∀ (p : Parsed) (title text : String),
      normalize_model_category p.category ≠ "" →
      (stampCategory p title text).category = normalize_model_category p.category) ∧
    (∀ (p : Parsed) (title text : String),
      normalize_model_category p.category = "" →
      (stampCategory p title text).category
        = (score_category_by_keywords title text).1) ∧
    (∀ (p : Parsed) (title text : String),
      normalize_model_category p.category ≠ "" →
      (stampCategory (sourceOnlyAdjust p title text) title text).category
        = normalize_model_category p.category) := by
  refine ⟨?_, ?_, ?_⟩
  · intro p t x h
    rw [stampCategory, if_pos h]
  · intro p t x h
    rw [stampCategory, if_neg (by simp [h])]
  · intro p t x h
    have hcat : (sourceOnlyAdjust p t x).category = normalize_model_category p.category := by
      rw [sourceOnlyAdjust]
      simp only [if_pos h]
    rw [stampCategory, hcat, normalize_idem p.category h, if_pos h]

/-- Instance of the category precedence policy at concrete inputs. -/
theorem model_category_precedence_witness :
    (stampCategory dupCand "t" "x").category
        = normalize_model_category dupCand.category ∧
    (stampCategory { emptyCand with category := "Misc" } "t" "x").category
        = (score_category_by_keywords "t" "x").1 ∧
    (stampCategory (sourceOnlyAdjust dupCand "t" "x") "t" "x").category
        = normalize_model_category dupCand.category :=
  ⟨model_category_precedence.1 dupCand "t" "x" (by decide),
    model_category_precedence.2.1 { emptyCand with category := "Misc" } "t" "x"
      (by decide),
    model_category_precedence.2.2 dupCand "t" "x" (by decide)⟩

-- ---------------- Theorem C8 ----------------

/-- An accepted candidate with a repeated facts sentence flows through
the pipeline unchanged: the emitted record carries two facts entries
with the same fingerprint, so no dedup invariant holds. -/
theorem record_dedup_cex :
    (processArticle (some dupCand) false none "T" "X" "u").map Parsed.key_points
      = some ["Duplicate fact sentence.", "Duplicate fact sentence."] ∧
    ¬ List.Pairwise (fun a b => fingerprint a ≠ fingerprint b)
        ["Duplicate fact sentence.", "Duplicate fact sentence."] := by
  constructor
  · decide
  · intro h
    exact (List.pairwise_cons.mp h).1 _ (List.mem_cons_self _ _) rfl

/-- C8 amended: the pipeline performs no fingerprint computation and no
dedup at all: for an accepted, valid, non-sentinel candidate, the
emitted record is the candidate with only its category restamped; the
facts list, context and background pass through verbatim, so duplicate
fingerprints survive. -/
theorem record_fields_pass_through :
    ∀ (p : Parsed) (k : Bool) (o : Option Parsed) (title text url : String),
      pyLower p.include_flag = "yes" →
      pyUpper (pyStrip p.context) ≠ "SOURCE_ONLY" →
      validate_parsed p = true →
      processArticle (some p) k o title text url
          = some (stampCategory p title text) ∧
      (stampCategory p title text).key_points = p.key_points ∧
      (stampCategory p title text).context = p.context ∧
      (stampCategory p title text).background = p.background := by
  intro p k o t x u h1 h2 h3
  refine ⟨?_, ?_, ?_, ?_⟩
  · rw [processArticle, orchestrate_valid_accept p k o t x u h1 h2 h3,
      Option.map_some']
  all_goals rw [stampCategory]; split_ifs <;> rfl

/-- Instance of the pass-through description at a concrete candidate. -/
theorem record_fields_pass_through_witness :
    processArticle (some validCand) false none "T" "B" "u"
        = some (stampCategory validCand "T" "B") ∧
    (stampCategory validCand "T" "B").key_points = validCand.key_points ∧
    (stampCategory validCand "T" "B").context = validCand.context ∧
    (stampCategory validCand "T" "B").background = validCand.background :=
  record_fields_pass_through validCand false none "T" "B" "u"
    (by decide) (by decide) (by decide)

-- ---------------- Theorem C6: arithmetic helpers ----------------

/-- Keyword weights are nonnegative. -/
theorem kwWeight_nonneg (kw : String) : 0 ≤ kwWeight kw := by
  have h : (0 : ℚ) ≤ min ((kw.length : ℚ) / 12) (3 / 2) :=
    le_min (by positivity) (by norm_num)
  rw [kwWeight]
  linarith

/-- Category scores are nonnegative. -/
theorem catScore_nonneg (kws : List String) (comb : List Char) :
    0 ≤ catScore kws comb := by
  rw [catScore]
  apply List.sum_nonneg
  intro x hx
  rcases List.mem_map.mp hx with ⟨kw, _, rfl⟩
  exact mul_nonneg (Nat.cast_nonneg _) (kwWeight_nonneg kw)

/-- The keyword weight is the twelfth of a natural number. -/
theorem kwWeight_eq (kw : String) :
    kwWeight kw = ((12 + min kw.length 18 : ℕ) : ℚ) / 12 := by
  rcases le_or_lt kw.length 18 with h | h
  · have hmin : min ((kw.length : ℚ) / 12) (3 / 2) = (kw.length : ℚ) / 12 := by
      apply min_eq_left
      rw [div_le_iff (by norm_num : (0:ℚ) < 12)]
      have : (kw.length : ℚ) ≤ 18 := by exact_mod_cast h
      linarith
    rw [kwWeight, hmin, Nat.min_eq_left h]
    push_cast
    ring
  · have hmin : min ((kw.length : ℚ) / 12) (3 / 2) = 3 / 2 := by
      apply min_eq_right
      rw [le_div_iff (by norm_num : (0:ℚ) < 12)]
      have : (19 : ℚ) ≤ (kw.length : ℚ) := by exact_mod_cast h
      linarith
    rw [kwWeight, hmin, Nat.min_eq_right (le_of_lt h)]
    norm_num

/-- Every category score is the twelfth of a natural number. -/
theorem catScore_twelfths (kws : List String) (comb : List Char) :
    ∃ n : ℕ, catScore kws comb = (n : ℚ) / 12 := by
  induction kws with
  | nil => exact ⟨0, by simp [catScore]⟩
  | cons kw rest ih =>
    obtain ⟨n, hn⟩ := ih
    refine ⟨countSub kw.data comb * (12 + min kw.length 18) + n, ?_⟩
    have hcons : catScore (kw :: rest) comb
        = ((countSub kw.data comb : ℕ) : ℚ) * kwWeight kw + catScore rest comb := by
      rw [catScore, catScore, List.map_cons, List.sum_cons]
    rw [hcons, hn, kwWeight_eq]
    push_cast
    ring

/-- Two twelfths within one millionth of each other are equal. -/
theorem twelfths_close (a b : ℕ) (h : |(a : ℚ) / 12 - (b : ℚ) / 12| < 1 / 1000000) :
    (a : ℚ) / 12 = (b : ℚ) / 12 := by
  have hcast : (a : ℚ) / 12 - (b : ℚ) / 12 = (((a : ℤ) - (b : ℤ) : ℤ) : ℚ) / 12 := by
    push_cast
    ring
  rw [hcast] at h
  rw [abs_div, abs_of_pos (by norm_num : (0:ℚ) < 12)] at h
  rw [div_lt_iff (by norm_num : (0:ℚ) < 12)] at h
  have h2 : |(((a : ℤ) - (b : ℤ) : ℤ) : ℚ)| < 1 := by norm_num at h ⊢; linarith
  rw [← Int.cast_abs] at h2
  have h3 : |(a : ℤ) - (b : ℤ)| < 1 := by exact_mod_cast h2
  have h4 : (a : ℤ) = (b : ℤ) := by
    rcases abs_lt.mp h3 with ⟨hl, hr⟩
    omega
  have h5 : a = b := by exact_mod_cast h4
  rw [h5]

-- ---------------- Theorem C6: stable sort helpers ----------------

/-- insertDesc inserts the element, up to permutation. -/
theorem insertDesc_perm (x : String × ℚ) (l : List (String × ℚ)) :
    (insertDesc x l).Perm (x :: l) := by
  induction l with
  | nil => exact List.Perm.refl _
  | cons y rest ih =>
    rw [insertDesc]
    split_ifs with h
    · exact (ih.cons y).trans (List.Perm.swap x y rest)
    · exact List.Perm.refl _

/-- pySortedDesc permutes its input. -/
theorem pySortedDesc_perm (l : List (String × ℚ)) : (pySortedDesc l).Perm l := by
  induction l with
  | nil => exact List.Perm.refl _
  | cons x rest ih =>
    exact (insertDesc_perm x (pySortedDesc rest)).trans (ih.cons x)

/-- insertDesc preserves descending sortedness. -/
theorem insertDesc_pairwise (x : String × ℚ) (l : List (String × ℚ))
    (h : l.Pairwise (fun a b => b.2 ≤ a.2)) :
    (insertDesc x l).Pairwise (fun a b => b.2 ≤ a.2) := by
  induction l with
  | nil => simp [insertDesc]
  | cons y rest ih =>
    rcases List.pairwise_cons.mp h with ⟨hy, hrest⟩
    rw [insertDesc]
    split_ifs with hlt
    · refine List.pairwise_cons.mpr ⟨?_, ih hrest⟩
      intro b hb
      rcases List.mem_cons.mp ((insertDesc_perm x rest).mem_iff.mp hb) with hb | hb
      · rw [hb]; exact le_of_lt hlt
      · exact hy b hb
    · refine List.pairwise_cons.mpr ⟨?_, h⟩
      intro b hb
      rcases List.mem_cons.mp hb with hb | hb
      · rw [hb]; exact le_of_not_lt hlt
      · exact le_trans (hy b hb) (le_of_not_lt hlt)

/-- pySortedDesc sorts by descending score. -/
theorem pySortedDesc_pairwise (l : List (String × ℚ)) :
    (pySortedDesc l).Pairwise (fun a b => b.2 ≤ a.2) := by
  induction l with
  | nil => simp [pySortedDesc]
  | cons x rest ih => exact insertDesc_pairwise x (pySortedDesc rest) ih

-- ---------------- Theorem C6: score table helpers ----------------

/-- Every entry of the scores dict is a taxonomy name paired with the
score the classifier reads back for it. -/
theorem scores_elements (title text : String) (x : String × ℚ)
    (hx : x ∈ scoresList title text) :
    x.1 ∈ catNames ∧ x.2 = getScore title text x.1 := by
  simp only [scoresList, CATEGORY_KEYWORDS, List.map_cons, List.map_nil,
    List.mem_cons, List.not_mem_nil, or_false] at hx
  rcases hx with rfl | rfl | rfl | rfl | rfl | rfl | rfl | rfl <;>
    exact ⟨by simp [catNames, CATEGORY_KEYWORDS], rfl⟩

/-- Every taxonomy name appears in the scores dict with its score. -/
theorem mem_scores (title text : String) (c : String) (hc : c ∈ catNames) :
    (c, getScore title text c) ∈ scoresList title text := by
  simp only [catNames, CATEGORY_KEYWORDS, List.map_cons, List.map_nil,
    List.mem_cons, List.not_mem_nil, or_false] at hc
  rcases hc with rfl | rfl | rfl | rfl | rfl | rfl | rfl | rfl <;>
    repeat first
      | exact List.mem_cons_self _ _
      | apply List.mem_cons_of_mem

/-- The score of a taxonomy name is a category score. -/
theorem getScore_eq_catScore (title text : String) (c : String) (hc : c ∈ catNames) :
    ∃ kws : List String,
      getScore title text c = catScore kws (combinedText title text) := by
  simp only [catNames, CATEGORY_KEYWORDS, List.map_cons, List.map_nil,
    List.mem_cons, List.not_mem_nil, or_false] at hc
  rcases hc with rfl | rfl | rfl | rfl | rfl | rfl | rfl | rfl <;> exact ⟨_, rfl⟩

/-- Scores of taxonomy names are nonnegative. -/
theorem getScore_nonneg (title text : String) (c : String) (hc : c ∈ catNames) :
    0 ≤ getScore title text c := by
  obtain ⟨kws, hk⟩ := getScore_eq_catScore title text c hc
  rw [hk]
  exact catScore_nonneg kws (combinedText title text)

/-- Scores of taxonomy names are twelfths of naturals. -/
theorem getScore_twelfths (title text : String) (c : String) (hc : c ∈ catNames) :
    ∃ n : ℕ, getScore title text c = (n : ℚ) / 12 := by
  obtain ⟨kws, hk⟩ := getScore_eq_catScore title text c hc
  obtain ⟨n, hn⟩ := catScore_twelfths kws (combinedText title text)
  exact ⟨n, hk.trans hn⟩

/-- The catch-all category has no keywords and scores zero. -/
theorem misc_score_zero (title text : String) : getScore title text "Misc" = 0 :=
  rfl

/-- The tie-break priority list enumerates taxonomy names. -/
theorem priority_sub : ∀ p ∈ priorityList, p ∈ catNames := by decide

/-- The tie-break priority list has no duplicates. -/
theorem priority_nodup : priorityList.Nodup := by decide

/-- The sorted scores list always has at least two entries (the scores
dict has eight). -/
theorem sorted_shape (title text : String) :
    ∃ e1 e2 rest, pySortedDesc (scoresList title text) = e1 :: e2 :: rest := by
  have hlen : (pySortedDesc (scoresList title text)).length = 8 :=
    (pySortedDesc_perm (scoresList title text)).length_eq.trans rfl
  rcases hl : pySortedDesc (scoresList title text) with _ | ⟨e1, _ | ⟨e2, rest⟩⟩
  · rw [hl] at hlen; simp at hlen
  · rw [hl] at hlen; simp at hlen
  · exact ⟨e1, e2, rest, rfl⟩

/-- The head of the sorted scores list is a taxonomy name achieving the
maximum score. -/
theorem sorted_head_max (title text : String) (e : String × ℚ)
    (rest : List (String × ℚ))
    (hs : pySortedDesc (scoresList title text) = e :: rest) :
    e.1 ∈ catNames ∧ e.2 = getScore title text e.1 ∧
    ∀ c ∈ catNames, getScore title text c ≤ e.2 := by
  have hperm := pySortedDesc_perm (scoresList title text)
  rw [hs] at hperm
  have hpw := pySortedDesc_pairwise (scoresList title text)
  rw [hs] at hpw
  have he : e ∈ scoresList title text := hperm.subset (List.mem_cons_self _ _)
  obtain ⟨heN, heq⟩ := scores_elements title text e he
  refine ⟨heN, heq, ?_⟩
  intro c hc
  have hmem : (c, getScore title text c) ∈ e :: rest :=
    hperm.mem_iff.mpr (mem_scores title text c hc)
  rcases List.mem_cons.mp hmem with h | h
  · exact le_of_eq (congrArg Prod.snd h)
  · exact (List.pairwise_cons.mp hpw).1 _ h

-- ---------------- Theorem C6: priority scan helpers ----------------

/-- A successful scan returns a member satisfying the predicate. -/
theorem firstSatisfying_some (pred : String → Bool) (l : List String) (p : String)
    (h : firstSatisfying pred l = some p) : p ∈ l ∧ pred p = true := by
  induction l with
  | nil => simp [firstSatisfying] at h
  | cons a rest ih =>
    rw [firstSatisfying] at h
    split_ifs at h with ha
    · cases h
      exact ⟨List.mem_cons_self _ _, ha⟩
    · obtain ⟨hm, hp⟩ := ih h
      exact ⟨List.mem_cons_of_mem a hm, hp⟩

/-- On a duplicate-free list, a predicate holding exactly at two
elements is first satisfied at the one listed earlier. -/
theorem firstSatisfying_first_of_pair (pred : String → Bool) (c1 c2 : String)
    (prio : List String) (hnd : prio.Nodup) (hsub : [c1, c2].Sublist prio)
    (hiff : ∀ p ∈ prio, (pred p = true ↔ (p = c1 ∨ p = c2))) :
    firstSatisfying pred prio = some c1 := by
  induction prio with
  | nil => simp at hsub
  | cons h tail ih =>
    rcases List.nodup_cons.mp hnd with ⟨hnotin, hndtail⟩
    cases hsub with
    | cons _ hsub2 =>
      have hc1tail : c1 ∈ tail := hsub2.subset (by simp)
      have hc2tail : c2 ∈ tail := hsub2.subset (by simp)
      have hh1 : h ≠ c1 := fun he => hnotin (he ▸ hc1tail)
      have hh2 : h ≠ c2 := fun he => hnotin (he ▸ hc2tail)
      have hpredh : ¬ pred h = true := by
        intro hp
        rcases (hiff h (List.mem_cons_self _ _)).mp hp with he | he
        · exact hh1 he
        · exact hh2 he
      rw [firstSatisfying, if_neg hpredh]
      exact ih hndtail hsub2 (fun p hp => hiff p (List.mem_cons_of_mem _ hp))
    | cons₂ _ hsub2 =>
      have hpredh : pred c1 = true :=
        (hiff c1 (List.mem_cons_self _ _)).mpr (Or.inl rfl)
      rw [firstSatisfying, if_pos hpredh]

-- ---------------- Theorem C6: evaluation helpers ----------------

/-- A category score is its scaled natural value over twelve. -/
theorem catScore_eq_N (kws : List String) (comb : List Char) :
    catScore kws comb = ((catScoreN kws comb : ℕ) : ℚ) / 12 := by
  induction kws with
  | nil => simp [catScore, catScoreN]
  | cons kw rest ih =>
    have hcons : catScore (kw :: rest) comb
        = ((countSub kw.data comb : ℕ) : ℚ) * kwWeight kw + catScore rest comb := by
      rw [catScore, catScore, List.map_cons, List.sum_cons]
    have hconsN : catScoreN (kw :: rest) comb
        = countSub kw.data comb * (12 + min kw.length 18) + catScoreN rest comb := by
      rw [catScoreN, catScoreN, List.map_cons, List.sum_cons]
    rw [hcons, ih, kwWeight_eq, hconsN]
    push_cast
    ring

/-- The score the classifier reads back for a taxonomy name is the
category score over that name's keyword list. -/
theorem getScore_kwsOf (title text c : String) (hc : c ∈ catNames) :
    getScore title text c = catScore (kwsOf c) (combinedText title text) := by
  simp only [catNames, CATEGORY_KEYWORDS, List.map_cons, List.map_nil,
    List.mem_cons, List.not_mem_nil, or_false] at hc
  rcases hc with rfl | rfl | rfl | rfl | rfl | rfl | rfl | rfl <;> rfl

/-- Scores of taxonomy names evaluate through the scaled natural form. -/
theorem getScore_eval (title text c : String) (hc : c ∈ catNames) :
    getScore title text c
      = ((catScoreN (kwsOf c) (combinedText title text) : ℕ) : ℚ) / 12 := by
  rw [getScore_kwsOf title text c hc]
  exact catScore_eq_N (kwsOf c) (combinedText title text)

/-- A zero scaled score is a zero score. -/
theorem getScore_eq_zero_of_N (title text c : String) (hc : c ∈ catNames)
    (h : catScoreN (kwsOf c) (combinedText title text) = 0) :
    getScore title text c = 0 := by
  rw [getScore_eval title text c hc, h]
  norm_num

/-- Equal scaled scores are equal scores. -/
theorem getScore_eq_of_N (title text c d : String) (hc : c ∈ catNames)
    (hd : d ∈ catNames)
    (h : catScoreN (kwsOf c) (combinedText title text)
      = catScoreN (kwsOf d) (combinedText title text)) :
    getScore title text c = getScore title text d := by
  rw [getScore_eval title text c hc, getScore_eval title text d hd, h]

/-- Strictly smaller scaled scores are strictly smaller scores. -/
theorem getScore_lt_of_N (title text c d : String) (hc : c ∈ catNames)
    (hd : d ∈ catNames)
    (h : catScoreN (kwsOf c) (combinedText title text)
      < catScoreN (kwsOf d) (combinedText title text)) :
    getScore title text c < getScore title text d := by
  rw [getScore_eval title text c hc, getScore_eval title text d hd]
  have hq : ((catScoreN (kwsOf c) (combinedText title text) : ℕ) : ℚ)
      < ((catScoreN (kwsOf d) (combinedText title text) : ℕ) : ℚ) := by
    exact_mod_cast h
  linarith

-- ---------------- Theorem C6: main parts ----------------

/-- All-zero scores send the classifier to the catch-all category. -/
theorem classifier_zero_misc (title text : String)
    (h : ∀ c ∈ catNames, getScore title text c = 0) :
    (score_category_by_keywords title text).1 = "Misc" := by
  obtain ⟨e1, e2, rest, hs⟩ := sorted_shape title text
  obtain ⟨hN, heq, _⟩ := sorted_head_max title text e1 (e2 :: rest) hs
  have he1 : e1.2 ≤ 0 := le_of_eq (heq.trans (h e1.1 hN))
  unfold score_category_by_keywords
  rw [hs]
  dsimp only
  rw [if_pos he1]

/-- The returned category always attains the maximum score. -/
theorem classifier_picks_max (title text : String) :
    (score_category_by_keywords title text).1 ∈ catNames ∧
    ∀ c ∈ catNames, getScore title text c
      ≤ getScore title text (score_category_by_keywords title text).1 := by
  obtain ⟨e1, e2, rest, hs⟩ := sorted_shape title text
  obtain ⟨hN, heq, hmax⟩ := sorted_head_max title text e1 (e2 :: rest) hs
  unfold score_category_by_keywords
  rw [hs]
  dsimp only
  split_ifs with h0 h7
  · refine ⟨by simp [catNames, CATEGORY_KEYWORDS], ?_⟩
    intro c hc
    rw [misc_score_zero]
    exact le_trans (hmax c hc) h0
  · split
    · rename_i p hf
      obtain ⟨hpP, hpred⟩ := firstSatisfying_some _ _ _ hf
      have hpN : p ∈ catNames := priority_sub p hpP
      have hdg : dictGet (scoresList title text) p = getScore title text p := rfl
      rcases (Bool.or_eq_true _ _).mp hpred with hclose | heqq
      · rw [decide_eq_true_eq, hdg] at hclose
        obtain ⟨np, hnp⟩ := getScore_twelfths title text p hpN
        obtain ⟨n1, hn1⟩ := getScore_twelfths title text e1.1 hN
        rw [hnp, heq, hn1] at hclose
        have : (np : ℚ) / 12 = (n1 : ℚ) / 12 := twelfths_close np n1 hclose
        refine ⟨hpN, ?_⟩
        intro c hc
        have : getScore title text p = e1.2 := by rw [hnp, heq, hn1, this]
        rw [this]
        exact hmax c hc
      · rw [decide_eq_true_eq, hdg] at heqq
        refine ⟨hpN, ?_⟩
        intro c hc
        rw [heqq]
        exact hmax c hc
    · refine ⟨hN, ?_⟩
      intro c hc
      rw [← heq]
      exact hmax c hc
  · refine ⟨hN, ?_⟩
    intro c hc
    rw [← heq]
    exact hmax c hc

/-- With exactly two categories attaining the (positive) maximum score,
the classifier returns the one listed earlier in the fixed priority
order. -/
theorem classifier_tie_priority (title text c1 c2 : String)
    (hc1 : c1 ∈ catNames) (hc2 : c2 ∈ catNames) (hne : c1 ≠ c2)
    (heq12 : getScore title text c1 = getScore title text c2)
    (hother : ∀ c ∈ catNames, c ≠ c1 → c ≠ c2 →
      getScore title text c < getScore title text c1)
    (hsub : [c1, c2].Sublist priorityList) :
    (score_category_by_keywords title text).1 = c1 := by
  have hallle : ∀ c ∈ catNames, getScore title text c ≤ getScore title text c1 := by
    intro c hc
    by_cases h1 : c = c1
    · rw [h1]
    · by_cases h2 : c = c2
      · rw [h2, ← heq12]
      · exact le_of_lt (hother c hc h1 h2)
  have hex : ∃ c, c ∈ catNames ∧ c ≠ c1 ∧ c ≠ c2 := by
    by_cases hA : c1 = "GS1" ∨ c2 = "GS1"
    · by_cases hB : c1 = "GS2" ∨ c2 = "GS2"
      · refine ⟨"GS3", by decide, ?_, ?_⟩
        · intro he
          rcases hA with hA | hA
          · exact absurd (he.trans hA) (by decide)
          · rcases hB with hB | hB
            · exact absurd (he.trans hB) (by decide)
            · exact absurd (hA.symm.trans hB) (by decide)
        · intro he
          rcases hA with hA | hA
          · rcases hB with hB | hB
            · exact absurd (hA.symm.trans hB) (by decide)
            · exact absurd (he.trans hB) (by decide)
          · exact absurd (he.trans hA) (by decide)
      · push_neg at hB
        exact ⟨"GS2", by decide, fun he => hB.1 he.symm, fun he => hB.2 he.symm⟩
    · push_neg at hA
      exact ⟨"GS1", by decide, fun he => hA.1 he.symm, fun he => hA.2 he.symm⟩
  obtain ⟨c0, hc0, h01, h02⟩ := hex
  have hMpos : 0 < getScore title text c1 :=
    lt_of_le_of_lt (getScore_nonneg title text c0 hc0) (hother c0 hc0 h01 h02)
  obtain ⟨e1, e2, rest, hs⟩ := sorted_shape title text
  obtain ⟨hN, heqh, hmax⟩ := sorted_head_max title text e1 (e2 :: rest) hs
  have he1M : e1.2 = getScore title text c1 :=
    le_antisymm (heqh ▸ hallle e1.1 hN) (hmax c1 hc1)
  have hperm := pySortedDesc_perm (scoresList title text)
  rw [hs] at hperm
  have hpw := pySortedDesc_pairwise (scoresList title text)
  rw [hs] at hpw
  have hmem1 : (c1, getScore title text c1) ∈ e1 :: e2 :: rest :=
    hperm.mem_iff.mpr (mem_scores title text c1 hc1)
  have hmem2 : (c2, getScore title text c1) ∈ e1 :: e2 :: rest := by
    have h2 : (c2, getScore title text c2) ∈ scoresList title text :=
      mem_scores title text c2 hc2
    rw [← heq12] at h2
    exact hperm.mem_iff.mpr h2
  have htail : (c1, getScore title text c1) ∈ e2 :: rest
      ∨ (c2, getScore title text c1) ∈ e2 :: rest := by
    rcases List.mem_cons.mp hmem1 with h1 | h1
    · rcases List.mem_cons.mp hmem2 with h2 | h2
      · exact absurd (congrArg Prod.fst (h1.trans h2.symm)) hne
      · exact Or.inr h2
    · exact Or.inl h1
  have he2M : e2.2 = getScore title text c1 := by
    have he2mem : e2 ∈ scoresList title text := hperm.subset (by simp)
    obtain ⟨he2N, he2eq⟩ := scores_elements title text e2 he2mem
    have hle : e2.2 ≤ getScore title text c1 := he2eq ▸ hallle e2.1 he2N
    have hge : getScore title text c1 ≤ e2.2 := by
      have hpw2 := (List.pairwise_cons.mp hpw).2
      rcases htail with h | h
      · rcases List.mem_cons.mp h with h2 | h2
        · exact le_of_eq (congrArg Prod.snd h2)
        · exact (List.pairwise_cons.mp hpw2).1 _ h2
      · rcases List.mem_cons.mp h with h2 | h2
        · exact le_of_eq (congrArg Prod.snd h2)
        · exact (List.pairwise_cons.mp hpw2).1 _ h2
    linarith
  unfold score_category_by_keywords
  rw [hs]
  dsimp only
  rw [if_neg (not_le.mpr (he1M ▸ hMpos))]
  have h7 : (7 : ℚ) / 10 * e1.2 ≤ e2.2 := by
    rw [he1M, he2M]
    linarith
  rw [if_pos h7]
  have hf : firstSatisfying
      (fun p =>
        decide (|dictGet (scoresList title text) p - e1.2| < 1 / 1000000)
          || decide (dictGet (scoresList title text) p = e1.2))
      priorityList = some c1 := by
    apply firstSatisfying_first_of_pair _ c1 c2 _ priority_nodup hsub
    intro p hp
    have hpN : p ∈ catNames := priority_sub p hp
    have hdg : dictGet (scoresList title text) p = getScore title text p := rfl
    simp only [Bool.or_eq_true, decide_eq_true_eq, hdg, he1M]
    constructor
    · rintro (hclose | heqq)
      · obtain ⟨np, hnp⟩ := getScore_twelfths title text p hpN
        obtain ⟨n1, hn1⟩ := getScore_twelfths title text c1 hc1
        rw [hnp, hn1] at hclose
        have heqp : getScore title text p = getScore title text c1 := by
          rw [hnp, hn1]
          exact twelfths_close np n1 hclose
        by_contra hcon
        push_neg at hcon
        exact absurd heqp (ne_of_lt (hother p hpN hcon.1 hcon.2))
      · by_contra hcon
        push_neg at hcon
        exact absurd heqq (ne_of_lt (hother p hpN hcon.1 hcon.2))
    · rintro (rfl | rfl)
      · exact Or.inr rfl
      · exact Or.inr heq12.symm
  rw [hf]

/-- C6: the classifier always returns a taxonomy category attaining the
maximum weighted keyword score; all-zero scores map to the catch-all
Misc; and when exactly two categories attain the maximum, the returned
category is the one listed earlier in the fixed priority ordering, with
no randomness anywhere. -/
theorem classifier_scoring_and_tiebreak :
    (∀ title text : String,
      (score_category_by_keywords title text).1 ∈ catNames ∧
      ∀ c ∈ catNames, getScore title text c
        ≤ getScore title text (score_category_by_keywords title text).1) ∧
    (∀ title text : String,
      (∀ c ∈ catNames, getScore title text c = 0) →
      (score_category_by_keywords title text).1 = "Misc") ∧
    (∀ title text c1 c2 : String,
      c1 ∈ catNames → c2 ∈ catNames → c1 ≠ c2 →
      getScore title text c1 = getScore title text c2 →
      (∀ c ∈ catNames, c ≠ c1 → c ≠ c2 →
        getScore title text c < getScore title text c1) →
      [c1, c2].Sublist priorityList →
      (score_category_by_keywords title text).1 = c1) :=
  ⟨classifier_picks_max, classifier_zero_misc, classifier_tie_priority⟩

/-- Instance of the classifier properties at concrete inputs: on the
text "geography", GS1 and Mapping tie at the maximum score and GS1 (the
earlier priority) is returned; on the keyword-free text "zzz" all
scores are zero and Misc is returned. -/
theorem classifier_scoring_and_tiebreak_witness :
    ((score_category_by_keywords "" "geography").1 ∈ catNames ∧
      ∀ c ∈ catNames, getScore "" "geography" c
        ≤ getScore "" "geography" (score_category_by_keywords "" "geography").1) ∧
    (score_category_by_keywords "" "zzz").1 = "Misc" ∧
    (score_category_by_keywords "" "geography").1 = "GS1" := by
  refine ⟨classifier_scoring_and_tiebreak.1 "" "geography", ?_, ?_⟩
  · apply classifier_scoring_and_tiebreak.2.1
    intro c hc
    simp only [catNames, CATEGORY_KEYWORDS, List.map_cons, List.map_nil,
      List.mem_cons, List.not_mem_nil, or_false] at hc
    rcases hc with rfl | rfl | rfl | rfl | rfl | rfl | rfl | rfl <;>
      exact getScore_eq_zero_of_N "" "zzz" _ (by decide) (by decide)
  · apply classifier_scoring_and_tiebreak.2.2 "" "geography" "GS1" "Mapping"
      (by decide) (by decide) (by decide)
      (getScore_eq_of_N "" "geography" "GS1" "Mapping" (by decide) (by decide)
        (by decide))
      ?_ (by decide)
    intro c hc h1 h2
    simp only [catNames, CATEGORY_KEYWORDS, List.map_cons, List.map_nil,
      List.mem_cons, List.not_mem_nil, or_false] at hc
    rcases hc with rfl | rfl | rfl | rfl | rfl | rfl | rfl | rfl
    · exact absurd rfl h1
    · exact getScore_lt_of_N "" "geography" _ _ (by decide) (by decide) (by decide)
    · exact getScore_lt_of_N "" "geography" _ _ (by decide) (by decide) (by decide)
    · exact getScore_lt_of_N "" "geography" _ _ (by decide) (by decide) (by decide)
    · exact getScore_lt_of_N "" "geography" _ _ (by decide) (by decide) (by decide)
    · exact absurd rfl h2
    · exact getScore_lt_of_N "" "geography" _ _ (by decide) (by decide) (by decide)
    · exact getScore_lt_of_N "" "geography" _ _ (by decide) (by decide) (by decide)

end UPSC
